import Mathlib

/-!
Shallow embedding of the analytics aggregation engine of
`posthog/api/action.py` (trends, stickiness, breakdown and people
queries), together with theorems checking the specification's claims
against it.

Modelling conventions:
* Calendar days are integers (their ordinal number); a `Timestamp` is a
  day plus the number of seconds elapsed since that day's midnight, so
  that comparing a timestamp with a date (which Django casts to the
  date's midnight) is the lexicographic comparison used by the database.
* The SQL result sets are lists; group rows appear in first-occurrence
  order of their key, one realizable order for an unordered `GROUP BY`.
* The external stores (event, action, person) are lists or functions
  passed as parameters; `relative_date_parse` and the property-filter
  compiler `properties_to_Q` live in `posthog/utils.py`, outside the
  covered sources, and are abstracted as the parameters `parse` and
  `propQ`.
* Python code that raises (`TypeError` on `date_to - None`,
  `MultiValueDictKeyError` on a missing `stickiness_days`) is modelled
  by an `Option` result that is `none` exactly on the raising paths.
-/

set_option maxRecDepth 4000

namespace Posthog

/-- A point in time: calendar day ordinal plus seconds after that day's
midnight.  `sec = 0` is exactly midnight, the instant a bare date maps
to when Django compares a `DateTimeField` with a `date`. -/
structure Timestamp where
  day : Int
  sec : Nat
deriving DecidableEq

/-- An event record, as used by the aggregation code: primary key,
resolved person, raw distinct id, timestamp and JSON properties.
A property key that is absent or whose value is JSON null both read
back as `none` (modelled by the `Option` in the association list). -/
structure Event where
  id : Nat
  person_id : Nat
  distinct_id : String
  ts : Timestamp
  properties : List (String × Option String)
deriving DecidableEq

/-- Per-entity filter configuration; the aggregation code only reads its
`math` key (`_process_math`). -/
structure Filters where
  math : Option String := none
deriving DecidableEq

/-- Property lookup on an event: absent key and explicit null both give
`none`, mirroring `properties__<key>` on the JSON field. -/
def get_prop (e : Event) (key : String) : Option String :=
  match e.properties.lookup key with
  | none => none
  | some v => v

/-- Distinct keys of a list in first occurrence order; models the key
set of an SQL `GROUP BY` (and `.values(...).distinct()`), with the
input order as the representative row order. -/
def keysOf {α κ : Type} [DecidableEq κ] (f : α → κ) : List α → List κ
  | [] => []
  | a :: l => f a :: (keysOf f l).filter (fun k => k ≠ f a)

/-- Date resolution, from `_get_dates_from_request` (action.py:162-174).
`relative_date_parse` is external (posthog/utils.py); it is abstracted
by `parse`, resolving relative expressions against `today`.  A missing
`date_from` defaults to `today - 7 days`, the sentinel `"all"` resolves
to `none` (unbounded), a missing `date_to` defaults to `today`. -/
def _get_dates_from_request (raw_from raw_to : Option String)
    (parse : String → Int) (today : Int) : Option Int × Int :=
  let date_from : Option Int :=
    match raw_from with
    | some s => if s = "all" then none else some (parse s)
    | none => some (today - 7)
  let date_to : Int :=
    match raw_to with
    | some s => parse s
    | none => today
  (date_from, date_to)

/-- Lower date bound `timestamp >= date_from` of `_filter_events`
(action.py:179-180): the date casts to its midnight, so the comparison
only constrains the day. -/
def tsGeDate (t : Timestamp) (d : Int) : Bool :=
  d ≤ t.day

/-- Upper date bound `timestamp <= date_to + 1 day` of `_filter_events`
(action.py:181-182): lexicographic comparison with the bound's
midnight, so a timestamp on the bound day itself matches only at
exactly midnight. -/
def tsLeDate (t : Timestamp) (d : Int) : Bool :=
  t.day < d || (t.day = d && t.sec = 0)

/-- The composed request filter of `_filter_events` (action.py:176-187):
optional lower date bound, upper bound `date_to + 1 day`, and the
property filter `propQ` (the external `properties_to_Q`, identity when
no properties are requested), AND-combined. -/
def _filter_events (date_from : Option Int) (date_to : Int)
    (propQ : Event → Bool) (e : Event) : Bool :=
  (match date_from with
   | some d => tsGeDate e.ts d
   | none => true)
  && tsLeDate e.ts (date_to + 1)
  && propQ e

/-- Count of a group of rows after `_process_math` (action.py:234-237):
`Count('id')` (one per row) unless the entity's math mode is `"dau"`,
in which case the annotation is replaced by
`Count('distinct_id', distinct=True)`. -/
def _process_math (filters : Filters) (group : List Event) : Nat :=
  if filters.math = some "dau" then
    (keysOf (fun e => e.distinct_id) group).length
  else
    group.length

/-- The window length of `_stickiness` (action.py:246):
`range_days = (date_to - date_from).days + 2`. -/
def range_days (date_from date_to : Int) : Int :=
  (date_to - date_from) + 2

/-- The emitted stickiness buckets, Python `range(1, range_days)`
(action.py:265): the integers `1 .. range_days - 1`. -/
def stickiness_buckets (rd : Int) : List Int :=
  (List.range (rd - 1).toNat).map (fun (i : Nat) => (i : Int) + 1)

/-- Number of distinct calendar days on which person `p` has an event in
`events`: `Count(TruncDay('timestamp'), distinct=True)` grouped by
person (action.py:250-251). -/
def day_count (events : List Event) (p : Nat) : Nat :=
  (keysOf (fun e => e.ts.day) (events.filter (fun e => e.person_id = p))).length

/-- The rows of `values('person_id').annotate(day_count=...)`: one row
per distinct person with their distinct-day count. -/
def person_day_counts (events : List Event) : List (Nat × Nat) :=
  (keysOf (fun e => e.person_id) events).map (fun p => (p, day_count events p))

/-- Step 1 of `_stickiness` (action.py:248-252): filter the request
window onto the pre-filtered event set, compute per-person distinct-day
counts, and keep only the rows with `day_count <= range_days`. -/
def stickiness_rows (date_from date_to : Int) (propQ : Event → Bool)
    (events : List Event) : List (Nat × Nat) :=
  let fe := events.filter (_filter_events (some date_from) date_to propQ)
  (person_day_counts fe).filter
    (fun r => (r.2 : Int) ≤ range_days date_from date_to)

/-- The dictionary `_stickiness` returns (action.py:270-274). -/
structure StickinessResult where
  labels : List String
  days : List Int
  data : List Nat
deriving DecidableEq

/-- The bucket label `'{} day{}'.format(day, 's' if day > 1 else '')`
(action.py:266). -/
def stickiness_label (day : Int) : String :=
  toString day ++ " day" ++ (if 1 < day then "s" else "")

/-- The stickiness histogram for a resolved (bounded) window
(action.py:244-274): the custom SQL groups the per-person rows by
`day_count` and counts persons; buckets `1 .. range_days - 1` are then
emitted in order, defaulting to `0` when no person has that count. -/
def stickiness_calc (date_from date_to : Int) (propQ : Event → Bool)
    (events : List Event) : StickinessResult :=
  let rows := stickiness_rows date_from date_to propQ events
  let buckets := stickiness_buckets (range_days date_from date_to)
  { labels := buckets.map stickiness_label
  , days := buckets
  , data := buckets.map (fun k => (rows.filter (fun r => (r.2 : Int) = k)).length) }

/-- `_stickiness` as called with the resolved dates: when `date_from`
resolved to `None` (the `"all"` sentinel), Python evaluates
`(date_to - None).days` and raises `TypeError`, so the operation has no
result; this is modelled by `none`. -/
def _stickiness (date_from : Option Int) (date_to : Int)
    (propQ : Event → Bool) (events : List Event) : Option StickinessResult :=
  match date_from with
  | none => none
  | some d => some (stickiness_calc d date_to propQ events)

/-- The grouped per-day rows of `_aggregate_by_day` (action.py:214-221):
apply the request filter, group by `TruncDay('timestamp')` and count
each group with `Count('id')` as overridden by `_process_math`.
`order_by()` clears any ordering, so the database may return the rows
in any order; the embedding materialises them in first-occurrence
order of the day, one realizable order. -/
def day_aggregates (events : List Event) (filters : Filters)
    (date_from : Option Int) (date_to : Int) (propQ : Event → Bool) :
    List (Int × Nat) :=
  let fe := events.filter (_filter_events date_from date_to propQ)
  (keysOf (fun e => e.ts.day) fe).map
    (fun d => (d, _process_math filters (fe.filter (fun e => e.ts.day = d))))

/-- The value a day receives in `_group_events_to_date`: the grouped
rows have pairwise-distinct days (they come from an SQL `GROUP BY`), so
`groupby('date').mean()` selects the day's own count, and the
`fillna(0)` after reindexing gives absent days `0`. -/
def day_value (aggregates : List (Int × Nat)) (d : Int) : Nat :=
  match aggregates.find? (fun r => r.1 = d) with
  | some r => r.2
  | none => 0

/-- `_group_events_to_date` (action.py:151-160): reindex the grouped
rows over `pd.date_range(date_from, date_to, freq='D')` — every
calendar day from `date_from` to `date_to` inclusive — filling the gaps
with `0` and dropping rows outside the range. -/
def _group_events_to_date (date_from date_to : Int)
    (aggregates : List (Int × Nat)) : List (Int × Nat) :=
  (List.range ((date_to + 1 - date_from).toNat)).map
    (fun (i : Nat) =>
      (date_from + (i : Int), day_value aggregates (date_from + (i : Int))))

/-- The (partial) dictionary `append` assembled by `_aggregate_by_day`:
a key is `some` exactly when the Python code put it into the dict. -/
structure Append where
  labels : Option (List String) := none
  days : Option (List Int) := none
  data : Option (List Nat) := none
  count : Option Nat := none
  breakdown : Option (List (String × Nat)) := none
deriving DecidableEq

/-- Per-day human label, `key.strftime('%a. %-d %B')` (action.py:206).
Calendar rendering is presentation-only and external to the covered
logic; the label is modelled as the day ordinal's decimal string, and
no claim depends on its text.  Likewise the `days` entries
(`strftime('%Y-%m-%d')`) are modelled as the day ordinals themselves. -/
def day_label (d : Int) : String :=
  toString d

/-- `_append_data` (action.py:204-210): unpack the filled series into
`labels`, `days` and `data` (same order), with `count` the sum of the
data values. -/
def _append_data (dates_filled : List (Int × Nat)) : Append :=
  { labels := some (dates_filled.map (fun r => day_label r.1))
  , days := some (dates_filled.map (fun r => r.1))
  , data := some (dates_filled.map (fun r => r.2))
  , count := some ((dates_filled.map (fun r => r.2)).sum)
  , breakdown := none }

/-- The label a breakdown group is reported under (action.py:199):
`item[key] if item[key] else 'undefined'` — a Python-falsy value
(absent key, JSON null, or the empty string) becomes `"undefined"`. -/
def breakdown_name (v : Option String) : String :=
  match v with
  | none => "undefined"
  | some s => if s = "" then "undefined" else s

/-- The grouped rows of `_breakdown` (action.py:191-197): apply the
request filter, group by the breakdown property's value and count each
group with `Count('id')` as overridden by `_process_math`. -/
def breakdown_groups (events : List Event) (filters : Filters)
    (date_from : Option Int) (date_to : Int) (propQ : Event → Bool)
    (key : String) : List (Option String × Nat) :=
  let fe := events.filter (_filter_events date_from date_to propQ)
  (keysOf (fun e => get_prop e key) fe).map
    (fun v => (v, _process_math filters (fe.filter (fun e => get_prop e key = v))))

/-- `_breakdown` (action.py:189-202): sort the groups by descending
count (`order_by('-count')`; ties are ordered arbitrarily by the
database, here stably), render each group's label, and return the list
together with the sum of the listed counts (which the caller stores as
the entity's `count`). -/
def _breakdown (events : List Event) (filters : Filters)
    (date_from : Option Int) (date_to : Int) (propQ : Event → Bool)
    (key : String) : List (String × Nat) × Nat :=
  let sorted := List.insertionSort (fun a b => b.2 ≤ a.2)
    (breakdown_groups events filters date_from date_to propQ key)
  let values := sorted.map (fun g => (breakdown_name g.1, g.2))
  (values, (values.map (fun v => v.2)).sum)

/-- `_aggregate_by_day` (action.py:212-232): group the filtered events
by day; if any rows result, resolve the effective `date_from` (falling
back to the day of the *first* returned row when the request's
`date_from` is unbounded), fill the series and append it; if a
breakdown was requested, compute it and overwrite `breakdown` and
`count`. -/
def _aggregate_by_day (events : List Event) (filters : Filters)
    (date_from : Option Int) (date_to : Int) (propQ : Event → Bool)
    (breakdown_by : Option String) : Append :=
  let aggs := day_aggregates events filters date_from date_to propQ
  let base : Append :=
    match aggs with
    | [] => {}
    | a :: _ =>
      let eff_from :=
        match date_from with
        | some d => d
        | none => a.1
      _append_data (_group_events_to_date eff_from date_to aggs)
  match breakdown_by with
  | none => base
  | some key =>
    let b := _breakdown events filters date_from date_to propQ key
    { base with breakdown := some b.1, count := some b.2 }

/-- The string constant `ENTITY_ACTIONS` (action.py:23). -/
def ENTITY_ACTIONS : String := "actions"

/-- The string constant `ENTITY_EVENTS` (action.py:24). -/
def ENTITY_EVENTS : String := "events"

/-- The serialized per-entity result dictionary built by
`_serialize_entity` (action.py:276-294); keys that the aggregators may
or may not set are `Option`s, `some` exactly when the Python dict holds
the key. -/
structure TrendResult where
  id : String
  name : String
  entityType : String
  label : String
  count : Nat
  breakdown : List (String × Nat)
  labels : Option (List String)
  days : Option (List Int)
  data : Option (List Nat)
deriving DecidableEq

/-- Merge one optional dictionary key, as `dict.update` does: the new
value wins when present, otherwise the old one stays. -/
def mergeOpt {α : Type} (new old : Option α) : Option α :=
  match new with
  | some x => some x
  | none => old

/-- An entity from the request's `events` JSON list: its `id` is the raw
event name, and the entity dict doubles as its filter config. -/
structure EventEntity where
  id : String
  math : Option String := none
deriving DecidableEq

/-- An entry of the request's `actions` JSON list: the requested action
id plus the per-entity filter config. -/
structure ActionReq where
  id : Nat
  math : Option String := none
deriving DecidableEq

/-- A stored action: id, name, deleted flag and the event set matching
its steps (`Event.objects.filter_by_action`, external, is modelled by
storing the matching events with the action). -/
structure ActionRec where
  id : Nat
  name : String
  deleted : Bool := false
  events : List Event
deriving DecidableEq

/-- The external stores visible to one team: the stored actions (in the
queryset's `order_by('-id')` order) and, for raw event names, the
matching events (`Event.objects.filter_by_event_with_people`). -/
structure Db where
  actions : List ActionRec
  eventsByName : String → List Event

/-- A trends request after date resolution: the parsed `events` and
`actions` parameters (`none` when the parameter is absent), the
resolved window, the display mode, the global breakdown key and the
compiled property filter. -/
structure TrendsRequest where
  events : Option (List EventEntity) := none
  actions : Option (List ActionReq) := none
  date_from : Option Int := none
  date_to : Int
  shown_as : Option String := none
  breakdown : Option String := none
  propQ : Event → Bool := fun _ => true

/-- `_serialize_entity` (action.py:276-294): build the base dictionary,
then update it from the Daily Aggregator (Volume, the default),
from the Stickiness Aggregator (`shown_as == 'Stickiness'`, undefined —
`TypeError` — when `date_from` is unbounded), or not at all for any
other `shown_as` value. -/
def _serialize_entity (shown_as : Option String) (date_from : Option Int)
    (date_to : Int) (propQ : Event → Bool) (filters : Filters)
    (breakdown_by : Option String) (id name entityType : String)
    (events : List Event) : Option TrendResult :=
  let base : TrendResult :=
    { id := id, name := name, entityType := entityType, label := name
    , count := 0, breakdown := [], labels := none, days := none, data := none }
  if shown_as.getD "Volume" = "Volume" then
    let ap := _aggregate_by_day events filters date_from date_to propQ breakdown_by
    some { base with
      labels := mergeOpt ap.labels base.labels
    , days := mergeOpt ap.days base.days
    , data := mergeOpt ap.data base.data
    , count := ap.count.getD base.count
    , breakdown := ap.breakdown.getD base.breakdown }
  else if shown_as = some "Stickiness" then
    match _stickiness date_from date_to propQ events with
    | none => none
    | some st => some { base with
        labels := some st.labels
      , days := some st.days
      , data := some st.data }
  else
    some base

/-- Serialization of one raw-event entity inside `trends`
(action.py:324-332): the event's name is both `id` and `name`, and the
entity dict is its filter config. -/
def serialize_event_entity (req : TrendsRequest) (db : Db)
    (e : EventEntity) : Option TrendResult :=
  _serialize_entity req.shown_as req.date_from req.date_to req.propQ
    { math := e.math } req.breakdown e.id e.id ENTITY_EVENTS
    (db.eventsByName e.id)

/-- Serialization of one stored action inside `trends`
(action.py:341-348 and 352-360) with the given per-entity filter
config. -/
def serialize_action_entity (req : TrendsRequest) (a : ActionRec)
    (math : Option String) : Option TrendResult :=
  _serialize_entity req.shown_as req.date_from req.date_to req.propQ
    { math := math } req.breakdown (toString a.id) a.name ENTITY_ACTIONS
    a.events

/-- The `parsed_events` loop of `trends` (action.py:323-334): serialize
each requested raw-event entity in order, appending it only when the
result dictionary holds a `labels` key. -/
def events_loop (req : TrendsRequest) (db : Db) :
    List EventEntity → Option (List TrendResult)
  | [] => some []
  | e :: es =>
    match serialize_event_entity req db e with
    | none => none
    | some t =>
      match events_loop req db es with
      | none => none
      | some rest => some (if t.labels.isSome then t :: rest else rest)

/-- The `parsed_actions` loop of `trends` (action.py:335-350): resolve
each requested action id against the team's non-deleted actions,
silently skipping unknown ids (`Action.DoesNotExist` → `continue`), and
append every resolved action's result unconditionally. -/
def actions_loop (req : TrendsRequest) (acts : List ActionRec) :
    List ActionReq → Option (List TrendResult)
  | [] => some []
  | f :: fs =>
    match acts.find? (fun a => a.id = f.id) with
    | none => actions_loop req acts fs
    | some a =>
      match serialize_action_entity req a f.math with
      | none => none
      | some t =>
        match actions_loop req acts fs with
        | none => none
        | some rest => some (t :: rest)

/-- The default branch of `trends` (action.py:351-362): when neither
explicit actions nor explicit events were requested, iterate over the
team's non-deleted actions with empty per-entity filters, appending
every result. -/
def default_actions_loop (req : TrendsRequest) :
    List ActionRec → Option (List TrendResult)
  | [] => some []
  | a :: rest_actions =>
    match serialize_action_entity req a none with
    | none => none
    | some t =>
      match default_actions_loop req rest_actions with
      | none => none
      | some rest => some (t :: rest)

/-- Python truthiness of a parsed JSON list parameter: `None` and the
empty list are falsy. -/
def option_truthy {α : Type} (o : Option (List α)) : Bool :=
  match o with
  | none => false
  | some l => !l.isEmpty

/-- The `trends` endpoint (action.py:314-364): serialize the requested
raw-event entities first, then — `if parsed_actions:` — the requested
actions, or — `elif parsed_events is None:` — the team's own action
set; the response is the concatenated list.  The result is `none` when
any processed entity's serialization is undefined. -/
def trends (req : TrendsRequest) (db : Db) : Option (List TrendResult) :=
  let acts := db.actions.filter (fun a => !a.deleted)
  match events_loop req db (req.events.getD []) with
  | none => none
  | some ev_part =>
    if option_truthy req.actions then
      match actions_loop req acts (req.actions.getD []) with
      | none => none
      | some act_part => some (ev_part ++ act_part)
    else if req.events.isNone then
      match default_actions_loop req acts with
      | none => none
      | some act_part => some (ev_part ++ act_part)
    else
      some ev_part

/-- The dictionary `_serialize_people` returns (action.py:296-305):
person profiles are modelled by their ids (`PersonSerializer` is
external presentation), and `count` is the length of the serialized
list. -/
structure PeopleResult where
  id : String
  name : String
  people : List Nat
  count : Nat
deriving DecidableEq

/-- `_serialize_people` (action.py:296-305). -/
def _serialize_people (id name : String) (people : List Nat) : PeopleResult :=
  { id := id, name := name, people := people, count := people.length }

/-- The actor-id rows `_calculate_people` builds (action.py:373-380):
Volume (the default) takes the distinct `person_id`s; Stickiness
requires the `stickiness_days` parameter — absent, the lookup
`request.GET['stickiness_days']` raises (`MissingParameterError` in the
spec's terms), modelled by `none` — and keeps the persons whose
distinct-day count equals it exactly.  Any other `shown_as` leaves the
rows as raw model instances, which the subsequent subscription
`p['person_id']` turns into a `TypeError`; also `none`. -/
def people_rows (shown_as : Option String) (stickiness_days : Option Nat)
    (events : List Event) : Option (List Nat) :=
  if shown_as.getD "Volume" = "Volume" then
    some (keysOf (fun e => e.person_id) events)
  else if shown_as = some "Stickiness" then
    match stickiness_days with
    | none => none
    | some sd =>
      some (((person_day_counts events).filter (fun r => r.2 = sd)).map (fun r => r.1))
  else
    none

/-- `_calculate_people` (action.py:372-390): resolve the actor-id rows,
cap them at 100 (`events[0:100]`) *before* loading profiles, load the
team's person records whose id is among the capped ids, and serialize
them with `count = len(people)`. -/
def _calculate_people (shown_as : Option String) (stickiness_days : Option Nat)
    (persons_db : List Nat) (id name : String) (events : List Event) :
    Option PeopleResult :=
  match people_rows shown_as stickiness_days events with
  | none => none
  | some rows =>
    let capped := rows.take 100
    let people := persons_db.filter (fun p => decide (p ∈ capped))
    some (_serialize_people id name people)

/-! ### General lemmas about the grouping primitives -/

theorem mem_keysOf {α κ : Type} [DecidableEq κ] (f : α → κ) (l : List α)
    (k : κ) : k ∈ keysOf f l ↔ ∃ a ∈ l, f a = k := by
  induction l with
  | nil => simp [keysOf]
  | cons a l ih =>
    by_cases hk : k = f a
    · subst hk
      simp [keysOf]
    · simp only [keysOf, List.mem_cons, List.mem_filter, ih, decide_eq_true_iff]
      constructor
      · rintro (h | ⟨⟨b, hb, rfl⟩, -⟩)
        · exact absurd h hk
        · exact ⟨b, Or.inr hb, rfl⟩
      · rintro ⟨b, hb, rfl⟩
        rcases hb with rfl | hb'
        · exact absurd rfl hk
        · exact Or.inr ⟨⟨b, hb', rfl⟩, hk⟩

theorem keysOf_nodup {α κ : Type} [DecidableEq κ] (f : α → κ) (l : List α) :
    (keysOf f l).Nodup := by
  induction l with
  | nil => simp [keysOf]
  | cons a l ih =>
    rw [keysOf, List.nodup_cons]
    refine ⟨?_, ih.filter _⟩
    intro h
    have := (List.mem_filter.1 h).2
    simp at this

theorem keysOf_length_eq_dedup {α κ : Type} [DecidableEq κ] (f : α → κ)
    (l : List α) : (keysOf f l).length = ((l.map f).dedup).length := by
  have h1 : List.Subperm (keysOf f l) ((l.map f).dedup) := by
    refine (keysOf_nodup f l).subperm ?_
    intro k hk
    rw [List.mem_dedup]
    rcases (mem_keysOf f l k).1 hk with ⟨a, ha, rfl⟩
    exact List.mem_map_of_mem f ha
  have h2 : List.Subperm ((l.map f).dedup) (keysOf f l) := by
    refine (List.nodup_dedup _).subperm ?_
    intro k hk
    rw [List.mem_dedup] at hk
    rcases List.mem_map.1 hk with ⟨a, ha, rfl⟩
    exact (mem_keysOf f l _).2 ⟨a, ha, rfl⟩
  exact (h1.antisymm h2).length_eq

theorem length_filter_or {α : Type} (l : List α) (p q : α → Bool)
    (h : ∀ a ∈ l, ¬(p a = true ∧ q a = true)) :
    (l.filter (fun a => p a || q a)).length
      = (l.filter p).length + (l.filter q).length := by
  induction l with
  | nil => simp
  | cons a l ih =>
    have ih' := ih (fun b hb => h b (List.mem_cons_of_mem a hb))
    have ha := h a (List.mem_cons_self a l)
    cases hp : p a with
    | true =>
      cases hq : q a with
      | true => exact absurd ⟨hp, hq⟩ ha
      | false =>
        simp [List.filter_cons, hp, hq, ih']
        omega
    | false =>
      cases hq : q a with
      | true =>
        simp [List.filter_cons, hp, hq, ih']
        omega
      | false => simpa [List.filter_cons, hp, hq] using ih'

theorem sum_filter_counts {α κ : Type} [DecidableEq κ] (l : List α)
    (f : α → κ) : ∀ ks : List κ, ks.Nodup →
    ((ks.map (fun k => (l.filter (fun a => f a = k)).length)).sum
      = (l.filter (fun a => decide (f a ∈ ks))).length) := by
  intro ks
  induction ks with
  | nil => simp
  | cons k ks ih =>
    intro hnd
    rcases List.nodup_cons.1 hnd with ⟨hk, hnd'⟩
    have hsplit := length_filter_or l (fun a => decide (f a = k))
      (fun a => decide (f a ∈ ks)) ?_
    · have hcongr : l.filter (fun a => decide (f a ∈ k :: ks))
          = l.filter (fun a => decide (f a = k) || decide (f a ∈ ks)) := by
        apply List.filter_congr
        intro a _
        simp [List.mem_cons]
      simp only [List.map_cons, List.sum_cons, ih hnd', hcongr, hsplit]
    · intro a _
      rintro ⟨h1, h2⟩
      simp only [decide_eq_true_iff] at h1 h2
      exact hk (h1 ▸ h2)

theorem length_filter_eq_one_of_nodup {κ : Type} [DecidableEq κ]
    (l : List κ) (h : l.Nodup) (a : κ) (ha : a ∈ l) :
    (l.filter (fun x => x = a)).length = 1 := by
  induction l with
  | nil => cases ha
  | cons b t ih =>
    have hb : b ∉ t := (List.nodup_cons.1 h).1
    have ht : t.Nodup := (List.nodup_cons.1 h).2
    rcases List.mem_cons.1 ha with h1 | h2
    · subst h1
      have hnil : t.filter (fun x => x = a) = [] := by
        rw [List.filter_eq_nil_iff]
        intro x hx
        simp only [decide_eq_true_iff]
        rintro rfl
        exact hb hx
      simp [List.filter_cons, hnil]
    · have hba : ¬(b = a) := fun hgg => hb (hgg ▸ h2)
      simp [List.filter_cons, hba, ih ht h2]

theorem mem_stickiness_buckets (rd k : Int) :
    k ∈ stickiness_buckets rd ↔ 1 ≤ k ∧ k ≤ rd - 1 := by
  simp only [stickiness_buckets, List.mem_map, List.mem_range]
  constructor
  · rintro ⟨i, hi, rfl⟩
    omega
  · rintro ⟨h1, h2⟩
    exact ⟨(k - 1).toNat, by omega, by omega⟩

theorem stickiness_buckets_nodup (rd : Int) :
    (stickiness_buckets rd).Nodup := by
  simp only [stickiness_buckets]
  refine List.Nodup.map ?_ (List.nodup_range _)
  intro i j hij
  simp only at hij
  omega

/-! ### Stickiness facts -/

theorem stickiness_calc_days (df dt : Int) (propQ : Event → Bool)
    (events : List Event) :
    (stickiness_calc df dt propQ events).days
      = stickiness_buckets (range_days df dt) := rfl

theorem stickiness_calc_data (df dt : Int) (propQ : Event → Bool)
    (events : List Event) :
    (stickiness_calc df dt propQ events).data
      = (stickiness_buckets (range_days df dt)).map
          (fun k => ((stickiness_rows df dt propQ events).filter
            (fun r => (r.2 : Int) = k)).length) := rfl

theorem stickiness_rows_day_count_pos (df dt : Int) (propQ : Event → Bool)
    (events : List Event) :
    ∀ p dc, (p, dc) ∈ stickiness_rows df dt propQ events → 1 ≤ dc := by
  intro p dc hmem
  have h0 : (p, dc) ∈ person_day_counts
        (events.filter (_filter_events (some df) dt propQ))
      ∧ (dc : Int) ≤ range_days df dt := by
    simpa [stickiness_rows] using hmem
  have h1 := h0.1
  rw [person_day_counts] at h1
  rcases List.mem_map.1 h1 with ⟨q, hq, heq⟩
  have hdc : day_count (events.filter (_filter_events (some df) dt propQ)) q = dc :=
    congrArg Prod.snd heq
  rcases (mem_keysOf _ _ _).1 hq with ⟨e, he, hpe⟩
  rw [← hdc, day_count]
  have hef : e ∈ (events.filter (_filter_events (some df) dt propQ)).filter
      (fun x => x.person_id = q) :=
    List.mem_filter.2 ⟨he, by simp [hpe]⟩
  have hd : e.ts.day ∈ keysOf (fun x => x.ts.day)
      ((events.filter (_filter_events (some df) dt propQ)).filter
        (fun x => x.person_id = q)) :=
    (mem_keysOf _ _ _).2 ⟨e, hef, rfl⟩
  exact List.length_pos_of_mem hd

/-! ### Daily aggregation facts -/

theorem group_events_to_date_days (df dt : Int) (aggs : List (Int × Nat)) :
    (_group_events_to_date df dt aggs).map (fun r => r.1)
      = (List.range ((dt + 1 - df).toNat)).map (fun (i : Nat) => df + (i : Int)) := by
  rw [_group_events_to_date, List.map_map]
  rfl

theorem day_value_eq_zero (aggs : List (Int × Nat)) (d : Int)
    (h : ∀ r ∈ aggs, r.1 ≠ d) : day_value aggs d = 0 := by
  have hnone : aggs.find? (fun r => r.1 = d) = none := by
    rw [List.find?_eq_none]
    intro x hx
    simp only [decide_eq_true_iff]
    exact h x hx
  rw [day_value, hnone]

theorem day_aggregates_ne_nil (events : List Event) (filters : Filters)
    (df : Option Int) (dt : Int) (propQ : Event → Bool)
    (h : events.filter (_filter_events df dt propQ) ≠ []) :
    day_aggregates events filters df dt propQ ≠ [] := by
  simp only [day_aggregates]
  intro hc
  rw [List.map_eq_nil_iff] at hc
  apply h
  cases hfe : events.filter (_filter_events df dt propQ) with
  | nil => rfl
  | cons e l =>
    rw [hfe, keysOf] at hc
    cases hc

theorem aggregate_by_day_cons_some (events : List Event) (filters : Filters)
    (d dt : Int) (propQ : Event → Bool)
    (a : Int × Nat) (rest : List (Int × Nat))
    (haggs : day_aggregates events filters (some d) dt propQ = a :: rest) :
    _aggregate_by_day events filters (some d) dt propQ none
      = _append_data (_group_events_to_date d dt
          (day_aggregates events filters (some d) dt propQ)) := by
  conv_lhs => rw [_aggregate_by_day]
  rw [haggs]

theorem aggregate_by_day_cons_none (events : List Event) (filters : Filters)
    (dt : Int) (propQ : Event → Bool)
    (a : Int × Nat) (rest : List (Int × Nat))
    (haggs : day_aggregates events filters none dt propQ = a :: rest) :
    _aggregate_by_day events filters none dt propQ none
      = _append_data (_group_events_to_date a.1 dt
          (day_aggregates events filters none dt propQ)) := by
  conv_lhs => rw [_aggregate_by_day]
  rw [haggs]

/-! ### Breakdown facts -/

theorem pair_mem_keyed_map {κ : Type} {g : κ → Nat} {keys : List κ}
    {d : κ} {c : Nat} (h : (d, c) ∈ keys.map (fun k => (k, g k))) :
    c = g d := by
  rcases List.mem_map.1 h with ⟨k, hk, heq⟩
  have h1 : k = d := congrArg Prod.fst heq
  have h2 : g k = c := congrArg Prod.snd heq
  rw [← h2, h1]

theorem breakdown_fst (events : List Event) (filters : Filters)
    (df : Option Int) (dt : Int) (propQ : Event → Bool) (key : String) :
    (_breakdown events filters df dt propQ key).1
      = (List.insertionSort (fun a b => b.2 ≤ a.2)
          (breakdown_groups events filters df dt propQ key)).map
          (fun g => (breakdown_name g.1, g.2)) := rfl

theorem breakdown_snd (events : List Event) (filters : Filters)
    (df : Option Int) (dt : Int) (propQ : Event → Bool) (key : String) :
    (_breakdown events filters df dt propQ key).2
      = ((_breakdown events filters df dt propQ key).1.map (fun x => x.2)).sum := rfl

/-! ### Claims -/

/-- C10: for every request with `shown_as = "Stickiness"` and
`date_from = "all"`, the Date Range Resolver yields `None` for the start
of the window, and the stickiness computation applied to that unbounded
start has no defined result — `range_days = (date_to − date_from).days
+ 2` is applied to `None` and raises — so no histogram is produced. -/
theorem C10_stickiness_unbounded_start_undefined :
    (∀ (raw_to : Option String) (parse : String → Int) (today : Int),
      (_get_dates_from_request (some "all") raw_to parse today).1 = none)
    ∧ (∀ (date_to : Int) (propQ : Event → Bool) (events : List Event),
      _stickiness none date_to propQ events = none) :=
  ⟨fun _ _ _ => rfl, fun _ _ _ => rfl⟩

/-- Events used by C9's witness: person 1 is active on two distinct
days, person 2 on one. -/
def c9_events : List Event :=
  [ { id := 1, person_id := 1, distinct_id := "a", ts := ⟨0, 3600⟩, properties := [] }
  , { id := 2, person_id := 1, distinct_id := "a", ts := ⟨1, 3600⟩, properties := [] }
  , { id := 3, person_id := 2, distinct_id := "b", ts := ⟨0, 7200⟩, properties := [] } ]

/-- C9: a people query with `shown_as = "Stickiness"` and no
`stickiness_days` parameter fails (the raising lookup is modelled by a
`none` result, not swallowed); with the parameter present, the selected
rows are exactly the distinct actors whose distinct active-day count
equals that value. -/
theorem C9_people_stickiness_days_contract :
    (∀ (persons_db : List Nat) (id name : String) (events : List Event),
      _calculate_people (some "Stickiness") none persons_db id name events = none)
    ∧ (∀ (k : Nat) (events : List Event) (rows : List Nat),
        people_rows (some "Stickiness") (some k) events = some rows →
        rows.Nodup ∧
          ∀ p, p ∈ rows ↔ (∃ e ∈ events, e.person_id = p) ∧ day_count events p = k) := by
  constructor
  · intro _ _ _ _
    rfl
  · intro k events rows h
    have hrows : rows
        = ((person_day_counts events).filter (fun r => r.2 = k)).map (fun r => r.1) := by
      simpa [people_rows] using h.symm
    have hsimp : ((person_day_counts events).filter (fun r => r.2 = k)).map (fun r => r.1)
        = (keysOf (fun e => e.person_id) events).filter
            (fun p => day_count events p = k) := by
      rw [person_day_counts, List.filter_map, List.map_map]
      simp [Function.comp_def]
    rw [hrows, hsimp]
    constructor
    · exact (keysOf_nodup _ _).filter _
    · intro p
      rw [List.mem_filter, mem_keysOf]
      simp

/-- Witness for C9 at a concrete input: without `stickiness_days` the
computation is undefined; with `stickiness_days = 2` exactly the
two-day-active person 1 is selected. -/
theorem C9_people_stickiness_days_contract_witness :
    (_calculate_people (some "Stickiness") none [1, 2] "e" "e" c9_events = none)
    ∧ ([1].Nodup ∧
        ∀ p, p ∈ [1] ↔ (∃ e ∈ c9_events, e.person_id = p) ∧ day_count c9_events p = 2) :=
  ⟨C9_people_stickiness_days_contract.1 [1, 2] "e" "e" c9_events,
   C9_people_stickiness_days_contract.2 2 c9_events [1] (by decide)⟩

/-- The 150 distinct matching actors of the spec's Scenario 4. -/
def scenario4_events : List Event :=
  (List.range 150).map (fun i =>
    { id := i, person_id := i, distinct_id := "", ts := ⟨0, 0⟩, properties := [] })

/-- The profile record list C8's witness obtains. -/
def c8_res : PeopleResult :=
  { id := "x", name := "x", people := [7], count := 1 }

/-- C8: for every people query that produces a result, the resolved
distinct actor id rows are capped at 100 before the person profiles are
loaded, and the result's `count` equals the number of profile records
returned; in particular, Scenario 4 (Volume mode, 150 distinct matching
actors, all of them stored persons) returns exactly 100 profiles. -/
theorem C8_people_cap_and_count :
    (∀ (shown_as : Option String) (stickiness_days : Option Nat)
       (persons_db : List Nat) (id name : String) (events : List Event)
       (r : PeopleResult),
      _calculate_people shown_as stickiness_days persons_db id name events = some r →
      (∃ rows, people_rows shown_as stickiness_days events = some rows ∧
        r.people = persons_db.filter (fun p => decide (p ∈ rows.take 100)) ∧
        r.count = r.people.length) ∧
      (persons_db.Nodup → r.count ≤ 100))
    ∧ (∃ r, _calculate_people none none (List.range 150) "e" "e" scenario4_events
          = some r ∧ r.count = 100) := by
  constructor
  · intro sa sd pdb id name events r h
    rw [_calculate_people] at h
    cases hrows : people_rows sa sd events with
    | none =>
      rw [hrows] at h
      cases h
    | some rows =>
      rw [hrows] at h
      have hr : r = _serialize_people id name
          (pdb.filter (fun p => decide (p ∈ rows.take 100))) := by
        cases h
        rfl
      subst hr
      refine ⟨⟨rows, rfl, rfl, rfl⟩, ?_⟩
      intro hnd
      have hsub : List.Subperm
          (pdb.filter (fun p => decide (p ∈ rows.take 100))) (rows.take 100) := by
        refine (hnd.filter _).subperm ?_
        intro p hp
        have := (List.mem_filter.1 hp).2
        simpa using this
      exact le_trans hsub.length_le (List.length_take_le _ _)
  · exact ⟨_, rfl, rfl⟩

/-- Witness for C8's universally quantified part at a concrete input:
one matching event of person 7, stored persons 7 and 8. -/
theorem C8_people_cap_and_count_witness :
    (∃ rows, people_rows none none
        [{ id := 0, person_id := 7, distinct_id := "", ts := ⟨0, 0⟩, properties := [] }]
        = some rows ∧
      c8_res.people = [7, 8].filter (fun p => decide (p ∈ rows.take 100)) ∧
      c8_res.count = c8_res.people.length) ∧
    ([7, 8].Nodup → c8_res.count ≤ 100) :=
  C8_people_cap_and_count.1 none none [7, 8] "x" "x"
    [{ id := 0, person_id := 7, distinct_id := "", ts := ⟨0, 0⟩, properties := [] }]
    c8_res (by decide)

/-- Scenario-1-style events used by C3's witness: two events on day 0,
none on day 1, one on day 2. -/
def c3_events : List Event :=
  [ { id := 1, person_id := 1, distinct_id := "a", ts := ⟨0, 5⟩, properties := [] }
  , { id := 2, person_id := 2, distinct_id := "b", ts := ⟨0, 6⟩, properties := [] }
  , { id := 3, person_id := 3, distinct_id := "c", ts := ⟨2, 7⟩, properties := [] } ]

/-- C3: for a bounded effective range `[date_from, date_to]` with at
least one matching event, the Daily Aggregator emits a `days` list of
exactly `(date_to − date_from).days + 1` entries, strictly increasing
by one calendar day starting at `date_from` (hence no duplicates and no
gaps), aligned `data` of the same length where a day with no grouped
row carries `0`, and a `count` equal to the sum of the data list. -/
theorem C3_daily_gap_filling
    (events : List Event) (filters : Filters) (df dt : Int) (propQ : Event → Bool)
    (h1 : df ≤ dt)
    (h2 : events.filter (_filter_events (some df) dt propQ) ≠ []) :
    ∃ ds da,
      (_aggregate_by_day events filters (some df) dt propQ none).days = some ds
      ∧ (_aggregate_by_day events filters (some df) dt propQ none).data = some da
      ∧ (_aggregate_by_day events filters (some df) dt propQ none).count = some da.sum
      ∧ ds.length = (dt - df).toNat + 1
      ∧ da.length = ds.length
      ∧ List.Chain' (fun a b => b = a + 1) ds
      ∧ ds.head? = some df
      ∧ ∀ pr ∈ ds.zip da,
          (∀ r ∈ day_aggregates events filters (some df) dt propQ, r.1 ≠ pr.1) →
          pr.2 = 0 := by
  have hne := day_aggregates_ne_nil events filters (some df) dt propQ h2
  cases haggs : day_aggregates events filters (some df) dt propQ with
  | nil => exact absurd haggs hne
  | cons a rest =>
    have key := aggregate_by_day_cons_some events filters df dt propQ a rest haggs
    refine ⟨(_group_events_to_date df dt
        (day_aggregates events filters (some df) dt propQ)).map (fun r => r.1),
      (_group_events_to_date df dt
        (day_aggregates events filters (some df) dt propQ)).map (fun r => r.2),
      ?_, ?_, ?_, ?_, ?_, ?_, ?_, ?_⟩
    · rw [key]
      rfl
    · rw [key]
      rfl
    · rw [key]
      rfl
    · rw [group_events_to_date_days, List.length_map, List.length_range]
      omega
    · simp
    · rw [group_events_to_date_days]
      rw [List.chain'_iff_get]
      intro i h
      simp only [List.get_eq_getElem, List.getElem_map, List.getElem_range]
      omega
    · rw [group_events_to_date_days]
      obtain ⟨m, hm⟩ : ∃ m, (dt + 1 - df).toNat = m + 1 := ⟨(dt - df).toNat, by omega⟩
      rw [hm, List.range_succ_eq_map]
      simp
    · have hzip : ((_group_events_to_date df dt
            (day_aggregates events filters (some df) dt propQ)).map (fun r => r.1)).zip
          ((_group_events_to_date df dt
            (day_aggregates events filters (some df) dt propQ)).map (fun r => r.2))
          = _group_events_to_date df dt
              (day_aggregates events filters (some df) dt propQ) := by
        rw [List.zip_map']
        simp
      intro pr hpr hrow
      rw [hzip] at hpr
      rw [_group_events_to_date] at hpr
      rcases List.mem_map.1 hpr with ⟨i, hi, hpr_eq⟩
      cases hpr_eq
      exact day_value_eq_zero _ _ (fun r hr => hrow r (haggs ▸ hr))

/-- Witness for C3 at Scenario 1's input: window `[0, 2]`, two events
on day 0 and one on day 2. -/
theorem C3_daily_gap_filling_witness :
    ∃ ds da,
      (_aggregate_by_day c3_events {} (some 0) 2 (fun _ => true) none).days = some ds
      ∧ (_aggregate_by_day c3_events {} (some 0) 2 (fun _ => true) none).data = some da
      ∧ (_aggregate_by_day c3_events {} (some 0) 2 (fun _ => true) none).count = some da.sum
      ∧ ds.length = ((2 : Int) - 0).toNat + 1
      ∧ da.length = ds.length
      ∧ List.Chain' (fun a b => b = a + 1) ds
      ∧ ds.head? = some 0
      ∧ ∀ pr ∈ ds.zip da,
          (∀ r ∈ day_aggregates c3_events {} (some 0) 2 (fun _ => true), r.1 ≠ pr.1) →
          pr.2 = 0 :=
  C3_daily_gap_filling c3_events {} 0 2 (fun _ => true) (by decide) (by decide)

/-- Grouped rows arriving in non-chronological order: the first
filtered event is on day 5, a later one on day 3, so the unordered
grouped query returns the rows as `[(5, 1), (3, 1)]`. -/
def c4_events : List Event :=
  [ { id := 1, person_id := 1, distinct_id := "a", ts := ⟨5, 0⟩, properties := [] }
  , { id := 2, person_id := 2, distinct_id := "b", ts := ⟨3, 0⟩, properties := [] } ]

/-- C4 is false as stated: with `date_from` unbounded the code reads
`aggregates[0]['day']` — the day of the first returned row, not the
earliest day present.  On `c4_events` the series starts at day 5 and
drops day 3 although a grouped row for day 3 exists. -/
theorem C4_unbounded_start_counterexample :
    (3, 1) ∈ day_aggregates c4_events {} none 5 (fun _ => true)
    ∧ (_aggregate_by_day c4_events {} none 5 (fun _ => true) none).days = some [5]
    ∧ ¬((_aggregate_by_day c4_events {} none 5 (fun _ => true) none).days
        = some [3, 4, 5]) := by
  decide

/-- C4 (amended): when `date_from` is unbounded and the filtered set is
nonempty, the effective `date_from` is the day of the *first* grouped
row — the day of the first filtered event under the embedding's
first-occurrence row order — and it coincides with the earliest day
present among the grouped rows exactly when that first day is minimal
in the filtered set. -/
theorem C4_unbounded_start_amended
    (events : List Event) (filters : Filters) (dt : Int) (propQ : Event → Bool)
    (e0 : Event) (tl : List Event)
    (hfe : events.filter (_filter_events none dt propQ) = e0 :: tl) :
    ((day_aggregates events filters none dt propQ).head?.map (fun r => r.1)
        = some e0.ts.day)
    ∧ (_aggregate_by_day events filters none dt propQ none).days
        = some ((List.range ((dt + 1 - e0.ts.day).toNat)).map
            (fun (i : Nat) => e0.ts.day + (i : Int)))
    ∧ ((∀ e ∈ events.filter (_filter_events none dt propQ), e0.ts.day ≤ e.ts.day) →
        ∀ r ∈ day_aggregates events filters none dt propQ, e0.ts.day ≤ r.1) := by
  have haggs0 : day_aggregates events filters none dt propQ
      = (e0.ts.day, _process_math filters
          ((e0 :: tl).filter (fun e => e.ts.day = e0.ts.day)))
        :: ((keysOf (fun e => e.ts.day) tl).filter (fun k => k ≠ e0.ts.day)).map
            (fun d => (d, _process_math filters
              ((e0 :: tl).filter (fun e => e.ts.day = d)))) := by
    simp only [day_aggregates, hfe, keysOf, List.map_cons]
  obtain ⟨c0, rest, haggs⟩ : ∃ c0 rest, day_aggregates events filters none dt propQ
      = (e0.ts.day, c0) :: rest := ⟨_, _, haggs0⟩
  refine ⟨?_, ?_, ?_⟩
  · rw [haggs]
    rfl
  · have key := aggregate_by_day_cons_none events filters dt propQ _ _ haggs
    rw [key]
    show some ((_group_events_to_date e0.ts.day dt
        (day_aggregates events filters none dt propQ)).map (fun r => r.1)) = _
    rw [group_events_to_date_days]
  · intro hmin r hr
    simp only [day_aggregates] at hr
    rcases List.mem_map.1 hr with ⟨d, hd, hgd⟩
    rcases (mem_keysOf _ _ _).1 hd with ⟨e, he, hed⟩
    have hle := hmin e he
    have hr1 : r.1 = d := by
      rw [← hgd]
    rw [hr1, ← hed]
    exact hle

/-- Witness for C4's amended statement at a concrete input where the
first filtered event's day (3) is also minimal. -/
def c4w_events : List Event :=
  [ { id := 1, person_id := 1, distinct_id := "a", ts := ⟨3, 0⟩, properties := [] }
  , { id := 2, person_id := 2, distinct_id := "b", ts := ⟨5, 0⟩, properties := [] } ]

/-- Witness for C4's amended statement. -/
theorem C4_unbounded_start_amended_witness :
    ((day_aggregates c4w_events {} none 5 (fun _ => true)).head?.map (fun r => r.1)
        = some 3)
    ∧ (_aggregate_by_day c4w_events {} none 5 (fun _ => true) none).days
        = some ((List.range (((5 : Int) + 1 - 3).toNat)).map
            (fun (i : Nat) => (3 : Int) + (i : Int)))
    ∧ ((∀ e ∈ c4w_events.filter (_filter_events none 5 (fun _ => true)),
          (3 : Int) ≤ e.ts.day) →
        ∀ r ∈ day_aggregates c4w_events {} none 5 (fun _ => true), (3 : Int) ≤ r.1) :=
  C4_unbounded_start_amended c4w_events {} 5 (fun _ => true)
    { id := 1, person_id := 1, distinct_id := "a", ts := ⟨3, 0⟩, properties := [] }
    [ { id := 2, person_id := 2, distinct_id := "b", ts := ⟨5, 0⟩, properties := [] } ]
    (by decide)

/-- Events refuting C1 as stated: with `date_from = date_to = 0` the
window filter `timestamp <= date_to + 1 day` also admits the event at
exactly midnight of day 1, so person 1 has `day_count = 2 =
range_days`, is kept by step 1's `day_count <= range_days` filter, but
the emitted buckets stop at `range_days - 1 = 1`. -/
def c1_events : List Event :=
  [ { id := 1, person_id := 1, distinct_id := "a", ts := ⟨0, 10⟩, properties := [] }
  , { id := 2, person_id := 1, distinct_id := "a", ts := ⟨1, 0⟩, properties := [] } ]

/-- C1 is false as stated: on `c1_events` with window `[0, 0]` the data
list sums to `0`, yet one distinct actor has matching events in the
window, and that actor's kept row `(1, 2)` is counted in no emitted
bucket. -/
theorem C1_stickiness_conservation_counterexample :
    (stickiness_calc 0 0 (fun _ => true) c1_events).data.sum = 0
    ∧ ((c1_events.filter (_filter_events (some 0) 0 (fun _ => true))).map
        (fun e => e.person_id)).dedup.length = 1
    ∧ (1, 2) ∈ stickiness_rows 0 0 (fun _ => true) c1_events
    ∧ ∀ k ∈ (stickiness_calc 0 0 (fun _ => true) c1_events).days,
        ((stickiness_rows 0 0 (fun _ => true) c1_events).filter
          (fun r => (r.2 : Int) = k)).length = 0 := by
  decide

/-- C1 (amended): the sum of the stickiness data equals the number of
distinct actors with at least one matching event in the window whose
distinct-day count is at most `range_days − 1`; each kept actor row
with such a count falls into exactly one emitted bucket, while a row
whose count equals `range_days` — reachable only through an event at
the exact midnight ending the window — is kept by step 1 yet appears in
no bucket. -/
theorem C1_stickiness_conservation_amended
    (df dt : Int) (propQ : Event → Bool) (events : List Event) :
    (stickiness_calc df dt propQ events).data.sum
      = ((keysOf (fun e => e.person_id)
            (events.filter (_filter_events (some df) dt propQ))).filter
          (fun p =>
            decide ((day_count (events.filter (_filter_events (some df) dt propQ)) p : Int)
              ≤ range_days df dt - 1))).length
    ∧ (∀ p dc, (p, dc) ∈ stickiness_rows df dt propQ events →
        ((dc : Int) ≤ range_days df dt - 1 →
          ((stickiness_calc df dt propQ events).days.filter
            (fun k => k = (dc : Int))).length = 1)
        ∧ ((dc : Int) = range_days df dt →
          (dc : Int) ∉ (stickiness_calc df dt propQ events).days)) := by
  constructor
  · rw [stickiness_calc_data]
    rw [sum_filter_counts (stickiness_rows df dt propQ events)
      (fun r => (r.2 : Int)) (stickiness_buckets (range_days df dt))
      (stickiness_buckets_nodup _)]
    have h2 : (stickiness_rows df dt propQ events).filter
          (fun a => decide ((a.2 : Int) ∈ stickiness_buckets (range_days df dt)))
        = (stickiness_rows df dt propQ events).filter
          (fun a => decide ((a.2 : Int) ≤ range_days df dt - 1)) := by
      apply List.filter_congr
      intro r hr
      have hpos := stickiness_rows_day_count_pos df dt propQ events r.1 r.2
        (by rw [Prod.mk.eta]; exact hr)
      simp only [decide_eq_decide]
      rw [mem_stickiness_buckets]
      omega
    rw [h2]
    have h3 : (stickiness_rows df dt propQ events).filter
          (fun a => decide ((a.2 : Int) ≤ range_days df dt - 1))
        = (person_day_counts (events.filter (_filter_events (some df) dt propQ))).filter
          (fun a => decide ((a.2 : Int) ≤ range_days df dt - 1)) := by
      simp only [stickiness_rows]
      rw [List.filter_filter]
      apply List.filter_congr
      intro r _
      by_cases hle : (r.2 : Int) ≤ range_days df dt - 1
      · by_cases hle2 : (r.2 : Int) ≤ range_days df dt
        · simp [hle, hle2]
        · omega
      · simp [hle]
    rw [h3, person_day_counts, List.filter_map, List.length_map]
    congr 1
  · intro p dc hmem
    have hpos := stickiness_rows_day_count_pos df dt propQ events p dc hmem
    constructor
    · intro hle
      rw [stickiness_calc_days]
      refine length_filter_eq_one_of_nodup _ (stickiness_buckets_nodup _) _ ?_
      exact (mem_stickiness_buckets _ _).2 ⟨by omega, hle⟩
    · intro heq hmem2
      rw [stickiness_calc_days] at hmem2
      have := (mem_stickiness_buckets _ _).1 hmem2
      omega

/-- Witness for C1's amended statement at a concrete input: the kept
row `(1, 2)` of `c1_events` has `day_count = range_days = 2` and lies
in no emitted bucket. -/
theorem C1_stickiness_conservation_amended_witness :
    ((2 : Nat) : Int) ∉ (stickiness_calc 0 0 (fun _ => true) c1_events).days :=
  ((C1_stickiness_conservation_amended 0 0 (fun _ => true) c1_events).2
    1 2 (by decide)).2 (by decide)

/-- Events of the spec's Scenario 2: day ordinals `0` and `1` stand for
2020-01-01 and 2020-01-02; person 1 (actor A) is active on both days,
person 2 (actor B) on one. -/
def scenario2_events : List Event :=
  [ { id := 1, person_id := 1, distinct_id := "a", ts := ⟨0, 3600⟩, properties := [] }
  , { id := 2, person_id := 1, distinct_id := "a", ts := ⟨1, 3600⟩, properties := [] }
  , { id := 3, person_id := 2, distinct_id := "b", ts := ⟨0, 7200⟩, properties := [] } ]

/-- C2 is false as stated on Scenario 2's input: with
`date_from = 2020-01-01` and `date_to = 2020-01-02` the code computes
`range_days = (1 - 0) + 2 = 3`, not `4`, so the output has two buckets,
not the claimed three. -/
theorem C2_stickiness_shape_counterexample :
    range_days 0 1 ≠ 4
    ∧ (stickiness_calc 0 1 (fun _ => true) scenario2_events).labels
        ≠ ["1 day", "2 days", "3 days"]
    ∧ (stickiness_calc 0 1 (fun _ => true) scenario2_events).data ≠ [1, 1, 0] := by
  decide

/-- C2 (amended): the Stickiness Aggregator uses
`range_days = (date_to − date_from).days + 2` and emits exactly the
buckets `K = 1 .. range_days − 1` in increasing order — `days` has
`range_days − 1` entries, consecutive entries differ by one, and the
`days` entries are exactly the integers of `[1, range_days − 1]` — with
labels derived from the bucket numbers and count `0` for every `K`
having no actors; on Scenario 2's input (`range_days = 3`) it returns
`labels = ["1 day", "2 days"]` and `data = [1, 1]`. -/
theorem C2_stickiness_shape_amended
    (df dt : Int) (propQ : Event → Bool) (events : List Event) :
    (stickiness_calc df dt propQ events).days.length = (range_days df dt - 1).toNat
    ∧ List.Chain' (fun a b => b = a + 1) (stickiness_calc df dt propQ events).days
    ∧ (∀ k : Int, k ∈ (stickiness_calc df dt propQ events).days ↔
        1 ≤ k ∧ k ≤ range_days df dt - 1)
    ∧ (stickiness_calc df dt propQ events).labels
        = (stickiness_calc df dt propQ events).days.map stickiness_label
    ∧ (∀ pr ∈ (stickiness_calc df dt propQ events).days.zip
          (stickiness_calc df dt propQ events).data,
        (∀ row ∈ stickiness_rows df dt propQ events, (row.2 : Int) ≠ pr.1) →
        pr.2 = 0)
    ∧ range_days 0 1 = 3
    ∧ stickiness_calc 0 1 (fun _ => true) scenario2_events
        = { labels := ["1 day", "2 days"], days := [1, 2], data := [1, 1] } := by
  refine ⟨?_, ?_, ?_, rfl, ?_, rfl, by decide⟩
  · rw [stickiness_calc_days, stickiness_buckets, List.length_map, List.length_range]
  · rw [stickiness_calc_days]
    rw [List.chain'_iff_get]
    intro i h
    simp only [stickiness_buckets, List.get_eq_getElem, List.getElem_map,
      List.getElem_range]
    omega
  · intro k
    rw [stickiness_calc_days]
    exact mem_stickiness_buckets _ k
  · have hz : ∀ (l : List Int) (g : Int → Nat) (pr : Int × Nat),
        pr ∈ l.zip (l.map g) → pr.2 = g pr.1 := by
      intro l g
      induction l with
      | nil =>
        intro pr h
        cases h
      | cons x t ih =>
        intro pr h
        rcases List.mem_cons.1 h with rfl | h'
        · rfl
        · exact ih pr h'
    intro pr hpr hrow
    rw [stickiness_calc_days, stickiness_calc_data] at hpr
    have h2 : pr.2 = ((stickiness_rows df dt propQ events).filter
        (fun r => (r.2 : Int) = pr.1)).length :=
      hz (stickiness_buckets (range_days df dt))
        (fun k => ((stickiness_rows df dt propQ events).filter
          (fun r => (r.2 : Int) = k)).length) pr hpr
    have hnil : (stickiness_rows df dt propQ events).filter
        (fun r => (r.2 : Int) = pr.1) = [] := by
      rw [List.filter_eq_nil_iff]
      intro r hr
      simp only [decide_eq_true_iff]
      exact hrow r hr
    rw [h2, hnil]
    rfl

/-- Witness for C2's amended statement on a window `[0, 2]`: bucket 3
has no actor and carries count `0`. -/
theorem C2_stickiness_shape_amended_witness :
    (stickiness_calc 0 2 (fun _ => true) scenario2_events).days.length
        = (range_days 0 2 - 1).toNat
    ∧ ((3 : Int), (0 : Nat)).2 = 0 :=
  ⟨(C2_stickiness_shape_amended 0 2 (fun _ => true) scenario2_events).1,
   (C2_stickiness_shape_amended 0 2 (fun _ => true) scenario2_events).2.2.2.2.1
     (3, 0) (by decide) (by decide)⟩

/-- The events of the spec's Scenario 3: three Chrome events, one
Safari event, and two with no usable `$browser` value (one key absent,
one explicit null). -/
def scenario3_events : List Event :=
  [ { id := 1, person_id := 1, distinct_id := "a", ts := ⟨0, 1⟩
    , properties := [("$browser", some "Chrome")] }
  , { id := 2, person_id := 2, distinct_id := "b", ts := ⟨0, 2⟩
    , properties := [("$browser", some "Chrome")] }
  , { id := 3, person_id := 3, distinct_id := "c", ts := ⟨0, 3⟩
    , properties := [("$browser", some "Chrome")] }
  , { id := 4, person_id := 4, distinct_id := "d", ts := ⟨0, 4⟩
    , properties := [("$browser", some "Safari")] }
  , { id := 5, person_id := 5, distinct_id := "e", ts := ⟨0, 5⟩
    , properties := [] }
  , { id := 6, person_id := 6, distinct_id := "f", ts := ⟨0, 6⟩
    , properties := [("$browser", none)] } ]

/-- C5: the Breakdown Aggregator groups the filtered events by the
property's value, reports the absent/null group under the literal label
`"undefined"`, sorts the groups by descending count, and returns as the
entity's total count the sum of the listed group counts (equal to the
raw number of filtered events when no `dau` math is requested); on
Scenario 3's input it yields
`[("Chrome", 3), ("undefined", 2), ("Safari", 1)]` with count 6. -/
theorem C5_breakdown_grouping (events : List Event) (filters : Filters)
    (df : Option Int) (dt : Int) (propQ : Event → Bool) (key : String) :
    (_breakdown events filters df dt propQ key).2
      = ((_breakdown events filters df dt propQ key).1.map (fun x => x.2)).sum
    ∧ List.Sorted (fun a b => b.2 ≤ a.2) (_breakdown events filters df dt propQ key).1
    ∧ (∀ v : Option String,
        (events.filter (_filter_events df dt propQ)).filter
          (fun e => get_prop e key = v) ≠ [] →
        (breakdown_name v, _process_math filters
          ((events.filter (_filter_events df dt propQ)).filter
            (fun e => get_prop e key = v)))
          ∈ (_breakdown events filters df dt propQ key).1)
    ∧ (∀ x ∈ (_breakdown events filters df dt propQ key).1,
        ∃ v : Option String, x.1 = breakdown_name v
          ∧ x.2 = _process_math filters
              ((events.filter (_filter_events df dt propQ)).filter
                (fun e => get_prop e key = v)))
    ∧ (filters.math ≠ some "dau" →
        (_breakdown events filters df dt propQ key).2
          = (events.filter (_filter_events df dt propQ)).length)
    ∧ _breakdown scenario3_events {} (some 0) 1 (fun _ => true) "$browser"
        = ([("Chrome", 3), ("undefined", 2), ("Safari", 1)], 6) := by
  have hsorted : List.Sorted (fun a b => b.2 ≤ a.2)
      (List.insertionSort (fun a b => b.2 ≤ a.2)
        (breakdown_groups events filters df dt propQ key)) := by
    haveI : IsTotal (Option String × Nat) (fun a b => b.2 ≤ a.2) :=
      ⟨fun a b => Nat.le_total b.2 a.2⟩
    haveI : IsTrans (Option String × Nat) (fun a b => b.2 ≤ a.2) :=
      ⟨fun a b c h1 h2 => Nat.le_trans h2 h1⟩
    exact List.sorted_insertionSort _ _
  refine ⟨breakdown_snd events filters df dt propQ key, ?_, ?_, ?_, ?_, by decide⟩
  · rw [breakdown_fst]
    exact List.Pairwise.map _ (fun a b hab => hab) hsorted
  · intro v hne
    obtain ⟨e, he⟩ := List.exists_mem_of_ne_nil _ hne
    have h1 := List.mem_filter.1 he
    have hv : v ∈ keysOf (fun e => get_prop e key)
        (events.filter (_filter_events df dt propQ)) :=
      (mem_keysOf _ _ _).2 ⟨e, h1.1, by simpa using h1.2⟩
    have h2 : (v, _process_math filters
        ((events.filter (_filter_events df dt propQ)).filter
          (fun e => get_prop e key = v)))
        ∈ breakdown_groups events filters df dt propQ key := by
      simp only [breakdown_groups]
      exact List.mem_map_of_mem _ hv
    have h3 := (List.perm_insertionSort (fun a b => b.2 ≤ a.2)
      (breakdown_groups events filters df dt propQ key)).mem_iff.2 h2
    rw [breakdown_fst]
    exact List.mem_map_of_mem _ h3
  · intro x hx
    rw [breakdown_fst] at hx
    rcases List.mem_map.1 hx with ⟨g, hg, hgx⟩
    have hg2 := (List.perm_insertionSort (fun a b => b.2 ≤ a.2)
      (breakdown_groups events filters df dt propQ key)).mem_iff.1 hg
    simp only [breakdown_groups] at hg2
    rcases List.mem_map.1 hg2 with ⟨v, hv, hvg⟩
    refine ⟨v, ?_, ?_⟩
    · rw [← hgx, ← hvg]
    · rw [← hgx, ← hvg]
  · intro hmath
    rw [breakdown_snd, breakdown_fst, List.map_map]
    have hsum : ((List.insertionSort (fun a b => b.2 ≤ a.2)
          (breakdown_groups events filters df dt propQ key)).map
          ((fun (x : String × Nat) => x.2) ∘ (fun g => (breakdown_name g.1, g.2)))).sum
        = ((breakdown_groups events filters df dt propQ key).map
            (fun (g : Option String × Nat) => g.2)).sum :=
      ((List.perm_insertionSort _ _).map _).sum_eq
    rw [hsum]
    simp only [breakdown_groups, List.map_map]
    have hproc : ∀ v : Option String, _process_math filters
          ((events.filter (_filter_events df dt propQ)).filter
            (fun e => get_prop e key = v))
        = ((events.filter (_filter_events df dt propQ)).filter
            (fun e => get_prop e key = v)).length := by
      intro v
      rw [_process_math, if_neg hmath]
    have hmapc : (keysOf (fun e => get_prop e key)
          (events.filter (_filter_events df dt propQ))).map
          ((fun (g : Option String × Nat) => g.2) ∘ (fun v => (v, _process_math filters
            ((events.filter (_filter_events df dt propQ)).filter
              (fun e => get_prop e key = v)))))
        = (keysOf (fun e => get_prop e key)
            (events.filter (_filter_events df dt propQ))).map
          (fun v => ((events.filter (_filter_events df dt propQ)).filter
            (fun e => get_prop e key = v)).length) := by
      apply List.map_congr_left
      intro v _
      exact hproc v
    rw [hmapc]
    rw [sum_filter_counts (events.filter (_filter_events df dt propQ))
      (fun e => get_prop e key)
      (keysOf (fun e => get_prop e key) (events.filter (_filter_events df dt propQ)))
      (keysOf_nodup _ _)]
    have hlen : ∀ p : Event → Bool,
        (∀ e ∈ events.filter (_filter_events df dt propQ), p e = true) →
        ((events.filter (_filter_events df dt propQ)).filter p).length
          = (events.filter (_filter_events df dt propQ)).length := by
      intro p hp
      rw [List.filter_eq_self.2 hp]
    apply hlen
    intro e he
    simp only [decide_eq_true_iff]
    exact (mem_keysOf _ _ _).2 ⟨e, he, rfl⟩

/-- Witness for C5 applied on Scenario 3's input: without `dau` math
the breakdown's total count equals the raw number of filtered events. -/
theorem C5_breakdown_grouping_witness :
    (_breakdown scenario3_events {} (some 0) 1 (fun _ => true) "$browser").2
      = (scenario3_events.filter (_filter_events (some 0) 1 (fun _ => true))).length :=
  (C5_breakdown_grouping scenario3_events {} (some 0) 1 (fun _ => true)
    "$browser").2.2.2.2.1 (by decide)

/-- C6: in `dau` math mode every count produced by the daily and by the
breakdown grouping is the number of distinct actors (distinct ids) of
that grouping key's events — each actor counted at most once per key —
while for any other `math` value (including absent) it is the raw
number of matching events of that key. -/
theorem C6_math_mode_counts (events : List Event) (filters : Filters)
    (df : Option Int) (dt : Int) (propQ : Event → Bool) :
    (filters.math = some "dau" →
      (∀ d c, (d, c) ∈ day_aggregates events filters df dt propQ →
        c = (((events.filter (_filter_events df dt propQ)).filter
            (fun e => e.ts.day = d)).map (fun e => e.distinct_id)).dedup.length)
      ∧ (∀ (key : String) (v : Option String) (c : Nat),
          (v, c) ∈ breakdown_groups events filters df dt propQ key →
          c = (((events.filter (_filter_events df dt propQ)).filter
              (fun e => get_prop e key = v)).map (fun e => e.distinct_id)).dedup.length))
    ∧ (filters.math ≠ some "dau" →
      (∀ d c, (d, c) ∈ day_aggregates events filters df dt propQ →
        c = ((events.filter (_filter_events df dt propQ)).filter
            (fun e => e.ts.day = d)).length)
      ∧ (∀ (key : String) (v : Option String) (c : Nat),
          (v, c) ∈ breakdown_groups events filters df dt propQ key →
          c = ((events.filter (_filter_events df dt propQ)).filter
              (fun e => get_prop e key = v)).length)) := by
  constructor
  · intro hmath
    constructor
    · intro d c h
      simp only [day_aggregates] at h
      have hc := pair_mem_keyed_map h
      rw [hc, _process_math, if_pos hmath, keysOf_length_eq_dedup]
    · intro key v c h
      simp only [breakdown_groups] at h
      have hc := pair_mem_keyed_map h
      rw [hc, _process_math, if_pos hmath, keysOf_length_eq_dedup]
  · intro hmath
    constructor
    · intro d c h
      simp only [day_aggregates] at h
      have hc := pair_mem_keyed_map h
      rw [hc, _process_math, if_neg hmath]
    · intro key v c h
      simp only [breakdown_groups] at h
      have hc := pair_mem_keyed_map h
      rw [hc, _process_math, if_neg hmath]

/-- Witness for C6 at a concrete input: person 1 produces two events
with the same distinct id on day 0, so `dau` math counts 1 while the
default math counts 2. -/
def c6_events : List Event :=
  [ { id := 1, person_id := 1, distinct_id := "a", ts := ⟨0, 1⟩, properties := [] }
  , { id := 2, person_id := 1, distinct_id := "a", ts := ⟨0, 2⟩, properties := [] } ]

/-- Keep an optional value only when it satisfies the predicate;
mirrors the membership test `'labels' in trend_entity` applied to a
serialization result. -/
def option_filter {α : Type} (p : α → Bool) (o : Option α) : Option α :=
  match o with
  | none => none
  | some a => if p a then some a else none

theorem serialize_entity_isSome (shown_as : Option String) (df : Option Int)
    (dt : Int) (propQ : Event → Bool) (filters : Filters)
    (breakdown_by : Option String) (id name entityType : String)
    (events : List Event)
    (h : shown_as = some "Stickiness" → df ≠ none) :
    (_serialize_entity shown_as df dt propQ filters breakdown_by
      id name entityType events).isSome = true := by
  rw [_serialize_entity]
  by_cases h1 : shown_as.getD "Volume" = "Volume"
  · rw [if_pos h1]
    rfl
  · rw [if_neg h1]
    by_cases h2 : shown_as = some "Stickiness"
    · rw [if_pos h2]
      cases hdf : df with
      | none => exact absurd hdf (h h2)
      | some d => rfl
    · rw [if_neg h2]
      rfl

theorem events_loop_eq (req : TrendsRequest) (db : Db) (es : List EventEntity)
    (h : ∀ e ∈ es, (serialize_event_entity req db e).isSome = true) :
    events_loop req db es
      = some (es.filterMap (fun e =>
          option_filter (fun t => t.labels.isSome)
            (serialize_event_entity req db e))) := by
  induction es with
  | nil => rfl
  | cons e es ih =>
    have he := h e (List.mem_cons_self e es)
    have hrest := ih (fun x hx => h x (List.mem_cons_of_mem e hx))
    cases hs : serialize_event_entity req db e with
    | none =>
      rw [hs] at he
      cases he
    | some t =>
      simp only [events_loop, hs, hrest, List.filterMap_cons, option_filter]
      by_cases hl : t.labels.isSome = true
      · simp [hl]
      · simp [hl]

theorem actions_loop_eq (req : TrendsRequest) (acts : List ActionRec)
    (fs : List ActionReq)
    (h : ∀ a ∈ acts, ∀ m, (serialize_action_entity req a m).isSome = true) :
    actions_loop req acts fs
      = some (fs.filterMap (fun f =>
          (acts.find? (fun a => a.id = f.id)).bind
            (fun a => serialize_action_entity req a f.math))) := by
  induction fs with
  | nil => rfl
  | cons f fs ih =>
    cases hfind : acts.find? (fun a => a.id = f.id) with
    | none =>
      simp only [actions_loop, hfind, ih, List.filterMap_cons]
      simp
    | some a =>
      have ha : a ∈ acts := List.mem_of_find?_eq_some hfind
      have hs := h a ha f.math
      cases hser : serialize_action_entity req a f.math with
      | none =>
        rw [hser] at hs
        cases hs
      | some t =>
        simp only [actions_loop, hfind, hser, ih, List.filterMap_cons]
        simp [hser]

theorem default_actions_loop_eq (req : TrendsRequest) (acts : List ActionRec)
    (h : ∀ a ∈ acts, (serialize_action_entity req a none).isSome = true) :
    default_actions_loop req acts
      = some (acts.filterMap (fun a => serialize_action_entity req a none)) := by
  induction acts with
  | nil => rfl
  | cons a acts ih =>
    have ha := h a (List.mem_cons_self a acts)
    have hrest := ih (fun x hx => h x (List.mem_cons_of_mem a hx))
    cases hs : serialize_action_entity req a none with
    | none =>
      rw [hs] at ha
      cases ha
    | some t =>
      simp only [default_actions_loop, hs, hrest, List.filterMap_cons]

/-- C7: for every trends request whose processing is defined (a
Stickiness request resolves a bounded start), the response is the
serialized raw-event entities in request order — each included only
when its result carries a series (`labels`) — followed by the action
results: the requested actions in request order when an `actions`
parameter is present (unknown ids resolved to nothing and skipped,
every resolved action included even when its result is empty), the
team's own non-deleted action set when neither parameter was given, and
nothing otherwise.  Skipping an unknown action id leaves the rest of
the loop's output unchanged — no error is raised. -/
theorem C7_trends_assembly (req : TrendsRequest) (db : Db)
    (h : req.shown_as = some "Stickiness" → req.date_from ≠ none) :
    trends req db = some (
      ((req.events.getD []).filterMap (fun e =>
        option_filter (fun t => t.labels.isSome) (serialize_event_entity req db e)))
      ++ (if option_truthy req.actions = true then
            (req.actions.getD []).filterMap (fun f =>
              ((db.actions.filter (fun a => !a.deleted)).find?
                (fun a => a.id = f.id)).bind
                (fun a => serialize_action_entity req a f.math))
          else if req.events.isNone = true then
            (db.actions.filter (fun a => !a.deleted)).filterMap
              (fun a => serialize_action_entity req a none)
          else []))
    ∧ (∀ (acts : List ActionRec) (f : ActionReq) (fs : List ActionReq),
        acts.find? (fun a => a.id = f.id) = none →
        actions_loop req acts (f :: fs) = actions_loop req acts fs) := by
  constructor
  · have hev := events_loop_eq req db (req.events.getD [])
      (fun e _ => serialize_entity_isSome _ _ _ _ _ _ _ _ _ _ h)
    have hact := actions_loop_eq req (db.actions.filter (fun a => !a.deleted))
      (req.actions.getD [])
      (fun a _ m => serialize_entity_isSome _ _ _ _ _ _ _ _ _ _ h)
    have hdef := default_actions_loop_eq req (db.actions.filter (fun a => !a.deleted))
      (fun a _ => serialize_entity_isSome _ _ _ _ _ _ _ _ _ _ h)
    rw [trends, hev]
    by_cases ht : option_truthy req.actions = true
    · simp only [ht, if_pos, hact]
    · simp only [ht, if_neg, Bool.false_eq_true, if_false]
      by_cases hn : req.events.isNone = true
      · simp only [hn, if_pos, hdef]
      · simp only [hn, Bool.false_eq_true, if_false, List.append_nil]
  · intro acts f fs hf
    simp only [actions_loop, hf]

/-- The store used by C7's witness: one stored action (id 1, with one
matching event) and one raw event name `"pv"` with one matching event;
everything else resolves to nothing. -/
def c7_db : Db :=
  { actions := [ { id := 1, name := "act", deleted := false
                 , events := [ { id := 10, person_id := 1, distinct_id := "a"
                               , ts := ⟨0, 1⟩, properties := [] } ] } ]
  , eventsByName := fun n =>
      if n = "pv" then
        [ { id := 11, person_id := 2, distinct_id := "b", ts := ⟨0, 2⟩
          , properties := [] } ]
      else [] }

/-- The request used by C7's witness: two raw-event entities (one with
matches, one without, the latter to be omitted) and two requested
actions (id 1 known, id 2 unknown and silently skipped). -/
def c7_req : TrendsRequest :=
  { events := some [{ id := "pv", math := none }, { id := "nothing", math := none }]
  , actions := some [{ id := 1, math := none }, { id := 2, math := none }]
  , date_from := some 0
  , date_to := 2
  , shown_as := none
  , breakdown := none
  , propQ := fun _ => true }

/-- Witness for C7 at the concrete request and store above. -/
theorem C7_trends_assembly_witness :
    trends c7_req c7_db = some (
      ((c7_req.events.getD []).filterMap (fun e =>
        option_filter (fun t => t.labels.isSome)
          (serialize_event_entity c7_req c7_db e)))
      ++ (if option_truthy c7_req.actions = true then
            (c7_req.actions.getD []).filterMap (fun f =>
              ((c7_db.actions.filter (fun a => !a.deleted)).find?
                (fun a => a.id = f.id)).bind
                (fun a => serialize_action_entity c7_req a f.math))
          else if c7_req.events.isNone = true then
            (c7_db.actions.filter (fun a => !a.deleted)).filterMap
              (fun a => serialize_action_entity c7_req a none)
          else []))
    ∧ (∀ (acts : List ActionRec) (f : ActionReq) (fs : List ActionReq),
        acts.find? (fun a => a.id = f.id) = none →
        actions_loop c7_req acts (f :: fs) = actions_loop c7_req acts fs) :=
  C7_trends_assembly c7_req c7_db (fun hc => Option.noConfusion hc)

/-- Witness for C6. -/
theorem C6_math_mode_counts_witness :
    ((1 : Nat)
        = (((c6_events.filter (_filter_events (some 0) 1 (fun _ => true))).filter
            (fun e => e.ts.day = 0)).map (fun e => e.distinct_id)).dedup.length)
    ∧ ((2 : Nat)
        = ((c6_events.filter (_filter_events (some 0) 1 (fun _ => true))).filter
            (fun e => e.ts.day = 0)).length) :=
  ⟨((C6_math_mode_counts c6_events { math := some "dau" } (some 0) 1
      (fun _ => true)).1 rfl).1 0 1 (by decide),
   ((C6_math_mode_counts c6_events {} (some 0) 1
      (fun _ => true)).2 (by decide)).1 0 2 (by decide)⟩

end Posthog
